import Mathlib

/-!
Shallow embedding of `src/main.py` (Live-Sensex): a Flask/SocketIO service with
a snapshot route `GET /stock`, a websocket broadcast poller
`fetch_and_emit_indices`, and connect/disconnect handlers guarding a global
`thread_running` flag.  Python numbers are modelled as rationals, Python dicts
as association lists of string keys to `PyVal` values, and the upstream
`yf.Ticker(symbol).info` call as an oracle `String → Except Unit Info`
(`Except.error` models the raised exception caught by the `except` branch).
-/

/-- Values that appear in the Python dicts built by `main.py`: strings,
numbers (floats and ints modelled as rationals), `None`, `-float('inf')`,
and pandas `NaN` fill values. -/
inductive PyVal where
  | str (s : String)
  | num (q : ℚ)
  | pynone
  | neginf
  | nan
deriving DecidableEq, Repr

/-- The fields of `yf.Ticker(symbol).info` that `main.py` reads via `.get`;
`none` models a missing key. -/
structure Info where
  longName : Option String
  currentPrice : Option ℚ
  previousClose : Option ℚ
  regularMarketPrice : Option ℚ
deriving DecidableEq, Repr

/-- A Python dict as an ordered association list (insertion order, as in
CPython), the shape of the entries appended to `all_stock_data` and
`indices_data`. -/
def Row : Type := List (String × PyVal)

instance : DecidableEq Row := by
  unfold Row
  infer_instance

/-- Key lookup in a dict row, as `row[key]` / `dict.get(key)`. -/
def rowGet (r : Row) (k : String) : Option PyVal :=
  (r.find? (fun p => p.1 = k)).map (fun p => p.2)

/-- The list of keys of a dict row, in insertion order. -/
def rowKeys (r : Row) : List String :=
  r.map (fun p => p.1)

/-- Executable subtraction on `ℚ` (the Batteries `Rat.sub` is `@[irreducible]`,
so kernel-evaluable mirrors are used in the embedding and proved equal to the
ambient operations below). -/
def qsub (a b : ℚ) : ℚ :=
  mkRat (a.num * b.den - b.num * a.den) (a.den * b.den)

/-- Executable multiplication on `ℚ`. -/
def qmul (a b : ℚ) : ℚ :=
  mkRat (a.num * b.num) (a.den * b.den)

/-- Executable division on `ℚ` (0 on division by zero, as the ambient one). -/
def qdiv (a b : ℚ) : ℚ :=
  Rat.divInt (a.num * b.den) (a.den * b.num)

/-- Executable floor of a rational (`Int.fdiv` of numerator by denominator). -/
def ratFloor (q : ℚ) : ℤ :=
  q.num.fdiv q.den

/-- Round-half-even on rationals, the tie-breaking rule of Python's builtin
`round` (floats modelled exactly as rationals). -/
def roundHalfEven (q : ℚ) : ℤ :=
  let f : ℤ := ratFloor q
  let r : ℚ := qsub q (Rat.ofInt f)
  if Rat.blt r (mkRat 1 2) then f
  else if Rat.blt (mkRat 1 2) r then f + 1
  else if f % 2 = 0 then f else f + 1

/-- Python's `round(x, 2)` on exact rationals. -/
def round2 (q : ℚ) : ℚ :=
  Rat.divInt (roundHalfEven (qmul q 100)) 100

/-- The decimal digit character for `d < 10`, as produced by Python's number
formatting. -/
def digitChar (d : ℕ) : Char :=
  Char.ofNat (48 + d)

/-- Fuel-driven decimal-digit accumulator (structural recursion so that the
kernel can evaluate it; `natDigits` supplies enough fuel). -/
def natDigitsAux : ℕ → ℕ → List Char
  | 0, _ => []
  | fuel + 1, n =>
    if n < 10 then [digitChar n]
    else natDigitsAux fuel (n / 10) ++ [digitChar (n % 10)]

/-- Decimal digits of a natural number, most significant first (the digit
string Python prints for the integer part). -/
def natDigits (n : ℕ) : List Char :=
  natDigitsAux (n + 1) n

/-- Fractional-part digits Python's `repr` prints for a float that is an exact
multiple of 1/100, given the fractional hundredths `fp < 100`: `x.0` for a
whole number, one digit when the hundredths end in 0, two digits otherwise. -/
def fracChars (fp : ℕ) : List Char :=
  if fp = 0 then ['0']
  else if fp % 10 = 0 then [digitChar (fp / 10)]
  else if fp < 10 then ['0', digitChar fp]
  else [digitChar (fp / 10), digitChar (fp % 10)]

/-- Character string of Python's `repr` of the float `m / 100` (sign, integer
digits, a dot, fractional digits). -/
def pyRepr2Chars (m : ℤ) : List Char :=
  (if m < 0 then ['-'] else []) ++ natDigits (m.natAbs / 100) ++ '.' :: fracChars (m.natAbs % 100)

/-- Python's `repr` of a float that is an exact multiple of 1/100 (every
value produced by `round(x, 2)` in the embedding), as interpolated by the
f-string in `main.py`. -/
def pyRepr2 (q : ℚ) : String :=
  String.mk (pyRepr2Chars (ratFloor (qmul q 100)))

/-- The f-string of `main.py` lines 66 and 164 (the condition is
`change_percent > 0`, the interpolation Python float `repr`):
`'+' if positive else nothing, then the number, then a percent sign`. -/
def formatChangePercent (cp : ℚ) : String :=
  (if Rat.blt 0 cp then "+" else "") ++ pyRepr2 cp ++ "%"

/-- The derived-field local variables computed by the `/stock` route body
(`main.py` lines 156–173): `change`, `change_percent`,
`change_percent_formatted`, `change_numeric`, and the possibly rewritten
`company_name`. -/
structure TransformOut where
  change : PyVal
  change_percent : PyVal
  change_percent_formatted : String
  change_numeric : PyVal
deriving DecidableEq, Repr

/-- The transform step of the `/stock` route (`main.py` lines 156–173),
mirroring the three branches on `current_price` / `previous_close`. -/
def transform_stock (current_price previous_close : Option ℚ) : TransformOut :=
  match current_price, previous_close with
  | some cp, some pc =>
    if pc ≠ 0 then
      let change := round2 (qsub cp pc)
      let change_percent := round2 (qmul (qdiv change pc) 100)
      { change := .num change
        change_percent := .num change_percent
        change_percent_formatted := formatChangePercent change_percent
        change_numeric := .num change_percent }
    else
      { change := .str "N/A", change_percent := .str "N/A"
        change_percent_formatted := "N/A", change_numeric := .num 0 }
  | some _, none =>
      { change := .str "N/A", change_percent := .str "N/A"
        change_percent_formatted := "N/A", change_numeric := .num 0 }
  | none, _ =>
      { change := .str "N/A", change_percent := .str "N/A"
        change_percent_formatted := "N/A", change_numeric := .neginf }

/-- One iteration of the `/stock` route's `for symbol in symbols` loop
(`main.py` lines 147–193): the dict appended to `all_stock_data`, on the
success path and on the `except` path.  Note the `except` branch writes the
key `'Change %'` where the success branch writes `'ChangeP'`. -/
def stockRow (symbol : String) (fetch : Except Unit Info) : Row :=
  match fetch with
  | .error _ =>
      [("Company", .str "Error"), ("Symbol", .str symbol), ("Price", .str "N/A"),
       ("Change", .str "N/A"), ("Change %", .str "N/A"), ("Change_Numeric", .neginf)]
  | .ok info =>
      let company_name := (info.longName.map PyVal.str).getD (.str "N/A")
      let company_name :=
        if info.currentPrice.isNone then PyVal.str "N/A (Data Unavailable)" else company_name
      let t := transform_stock info.currentPrice info.previousClose
      [("Company", company_name), ("Symbol", .str symbol),
       ("Price", (info.currentPrice.map PyVal.num).getD .pynone),
       ("Change", t.change), ("ChangeP", .str t.change_percent_formatted),
       ("Change_Numeric", t.change_numeric)]

/-- The fixed equities basket of the `/stock` route (`main.py` lines 134–145). -/
def stock_symbols : List String :=
  ["RELIANCE.NS", "TCS.NS", "HDFCBANK.NS", "ICICIBANK.NS", "INFY.NS",
   "SBIN.NS", "MARUTI.NS", "ASIANPAINT.BO", "TITAN.BO", "AMZN"]

/-- The `Change_Numeric` sort key of a row as an optional rational: `none`
models `-float('inf')` (and is the value for the `except`-path rows). -/
def optKey (r : Row) : Option ℚ :=
  match rowGet r "Change_Numeric" with
  | some (.num q) => some q
  | _ => none

/-- Executable "less or equal" on optional rationals with `none` as negative
infinity, the float order pandas sorts `Change_Numeric` by. -/
def keyLEb : Option ℚ → Option ℚ → Bool
  | none, _ => true
  | some _, none => false
  | some a, some b => !(Rat.blt b a)

/-- Row comparator of `df.sort_values(by='Change_Numeric', ascending=False)`:
row `a` may precede row `b` when `a`'s key is at least `b`'s. -/
def rowDescLE (a b : Row) : Bool :=
  keyLEb (optKey b) (optKey a)

/-- The comparator as a decidable relation, for Mathlib's insertion sort
(`pd.sort_values` is any comparison sort for this total preorder; only the
sortedness of its output is observable). -/
def rowDescRel : Row → Row → Prop :=
  fun a b => rowDescLE a b = true

instance : DecidableRel rowDescRel :=
  fun a b => instDecidableEqBool (rowDescLE a b) true

instance : IsTotal Row rowDescRel where
  total a b := by
    unfold rowDescRel rowDescLE
    rcases hb : optKey b with _ | qb <;> rcases ha : optKey a with _ | qa
    · exact Or.inl rfl
    · exact Or.inl rfl
    · exact Or.inr rfl
    · rcases le_total qa qb with h | h
      · refine Or.inr ?_
        show (!(Rat.blt qb qa)) = true
        rw [show Rat.blt qb qa = false from h]
        rfl
      · refine Or.inl ?_
        show (!(Rat.blt qa qb)) = true
        rw [show Rat.blt qa qb = false from h]
        rfl

instance : IsTrans Row rowDescRel where
  trans a b c h1 h2 := by
    unfold rowDescRel rowDescLE at h1 h2 ⊢
    rcases hc : optKey c with _ | qc
    · rfl
    · rcases hb : optKey b with _ | qb
      · rw [hb, hc] at h2
        exact absurd h2 (by simp [keyLEb])
      · rcases ha : optKey a with _ | qa
        · rw [ha, hb] at h1
          exact absurd h1 (by simp [keyLEb])
        · rw [ha, hb] at h1
          rw [hb, hc] at h2
          simp only [keyLEb, Bool.not_eq_true'] at h1 h2
          show (!(Rat.blt qa qc)) = true
          have hca : qc ≤ qa :=
            le_trans (show qc ≤ qb from h2) (show qb ≤ qa from h1)
          rw [show Rat.blt qa qc = false from hca]
          rfl

/-- The sort key as a `WithBot ℚ` (the float line extended with `-inf`), for
stating order properties. -/
def sortKey (r : Row) : WithBot ℚ :=
  match optKey r with
  | some q => (q : WithBot ℚ)
  | none => ⊥

/-- Column union of a list of dict rows in first-appearance order, as the
`pd.DataFrame` constructor computes its columns. -/
def df_columns (rows : List Row) : List String :=
  rows.foldl (fun acc r => (rowKeys r).foldl (fun a k => if k ∈ a then a else a ++ [k]) acc) []

/-- One output record of `df.to_dict(orient='records')` restricted to the
given columns: every column present, missing cells filled with `NaN`. -/
def df_record (cols : List String) (r : Row) : Row :=
  cols.map (fun c => (c, (rowGet r c).getD .nan))

/-- The per-symbol loop of the `/stock` route: one appended dict per symbol,
on the success path or the `except` path (`main.py` lines 147–193). -/
def all_stock_data (symbols : List String) (oracle : String → Except Unit Info) : List Row :=
  symbols.map (fun s => stockRow s (oracle s))

/-- The `/stock` route `get_indian_stock_performance_route` over an arbitrary
symbols list (`main.py` lines 147–200): build `all_stock_data`; if non-empty,
sort descending by `Change_Numeric`, drop that column, and return the
records (HTTP 200); otherwise return the error message (HTTP 500). -/
def stock_route (symbols : List String) (oracle : String → Except Unit Info) :
    Except String (List Row) :=
  let rows := all_stock_data symbols oracle
  if rows.isEmpty then .error "No stock data could be retrieved."
  else
    let cols := (df_columns rows).filter (fun c => c ≠ "Change_Numeric")
    .ok ((List.insertionSort rowDescRel rows).map (df_record cols))

/-- The actual route, over the fixed basket `stock_symbols`. -/
def get_indian_stock_performance_route (oracle : String → Except Unit Info) :
    Except String (List Row) :=
  stock_route stock_symbols oracle

/-- The row list of a route response (empty on the 500 branch). -/
def response_rows (resp : Except String (List Row)) : List Row :=
  match resp with
  | .ok rows => rows
  | .error _ => []

/-- The key lists of every row of a route response. -/
def response_keys (resp : Except String (List Row)) : List (List String) :=
  (response_rows resp).map rowKeys

/-- The derived-field local variables of the websocket fetch body
(`main.py` lines 59–71): initialised to `'N/A'`, overwritten only when both
prices are present and the previous close is nonzero. -/
structure IndicesOut where
  change : PyVal
  change_percent : PyVal
  change_percent_formatted : String
deriving DecidableEq, Repr

/-- The transform step of `fetch_and_emit_indices` (`main.py` lines 59–71). -/
def transform_indices (current_price previous_close : Option ℚ) : IndicesOut :=
  match current_price, previous_close with
  | some cp, some pc =>
    if pc ≠ 0 then
      let change := round2 (qsub cp pc)
      let change_percent := round2 (qmul (qdiv change pc) 100)
      { change := .num change
        change_percent := .num change_percent
        change_percent_formatted := formatChangePercent change_percent }
    else
      { change := .str "N/A", change_percent := .str "N/A",
        change_percent_formatted := "N/A" }
  | _, _ =>
      { change := .str "N/A", change_percent := .str "N/A",
        change_percent_formatted := "N/A" }

/-- One iteration of the `for name, symbol in index_symbols.items()` loop of
`fetch_and_emit_indices` (`main.py` lines 47–89): the dict appended to
`indices_data`, on the success path and on the `except` path. -/
def indicesRow (name symbol : String) (fetch : Except Unit Info) : Row :=
  match fetch with
  | .error _ =>
      [("Name", .str name), ("Symbol", .str symbol), ("Price", .str "N/A"),
       ("Change", .str "N/A"), ("Change %", .str "N/A")]
  | .ok info =>
      let t := transform_indices info.regularMarketPrice info.previousClose
      [("Name", .str name), ("Symbol", .str symbol),
       ("Price", (info.regularMarketPrice.map PyVal.num).getD .pynone),
       ("Change", t.change), ("Change %", .str t.change_percent_formatted)]

/-- The fixed indices basket of the broadcast poller (`main.py` lines 38–41),
in dict insertion order. -/
def index_symbols : List (String × String) :=
  [("Sensex", "^BSESN"), ("Nifty 50", "^NSEI")]

/-- The `indices_data` list one poll cycle assembles over a basket
(`main.py` lines 44–89). -/
def fetch_cycle_rows (basket : List (String × String))
    (oracle : String → Except Unit Info) : List Row :=
  basket.map (fun p => indicesRow p.1 p.2 (oracle p.2))

/-- The one-entry marker batch of `main.py` line 97. -/
def no_index_data_batch : List Row :=
  [[("message", .str "No index data could be retrieved.")]]

/-- The payload the poll cycle emits as `indices_update` (`main.py` lines
92–97): the assembled rows if non-empty, else the single marker entry. -/
def indices_update_payload (basket : List (String × String))
    (oracle : String → Except Unit Info) : List Row :=
  let rows := fetch_cycle_rows basket oracle
  if rows.isEmpty then no_index_data_batch else rows

/-- The shared state the connect/disconnect handlers and the background task
touch: the global `thread_running` flag, the spawned-but-not-yet-scheduled
background tasks, how many instances of the poll loop ever started, and the
transport's set of connected clients (a count; handles are interchangeable
here). -/
structure ServerState where
  thread_running : Bool
  pending_tasks : ℕ
  loops_started : ℕ
  clients : ℕ
deriving DecidableEq, Repr

/-- Scheduler-visible atomic events: a `connect` runs `handle_connect` to
completion (eventlet handlers do not yield between the flag test and
`start_background_task`, which only queues a greenlet), a `disconnect` runs
`handle_disconnect`, and `begin_task` is the first step of a queued
`fetch_and_emit_indices` greenlet, which sets `thread_running = True` and
enters the loop (`main.py` lines 35–36, 204–224). -/
inductive SocketEvent where
  | connect
  | disconnect
  | begin_task
deriving DecidableEq, Repr

/-- One scheduler step.  `handle_connect` spawns a new task iff the flag is
still false; `handle_disconnect` touches nothing but the client set;
a queued task, once scheduled, sets the flag and counts as a running loop
instance. -/
def socket_step (s : ServerState) : SocketEvent → ServerState
  | .connect =>
      if s.thread_running then { s with clients := s.clients + 1 }
      else { s with clients := s.clients + 1, pending_tasks := s.pending_tasks + 1 }
  | .disconnect => { s with clients := s.clients - 1 }
  | .begin_task =>
      match s.pending_tasks with
      | 0 => s
      | n + 1 =>
          { s with pending_tasks := n, thread_running := true,
                   loops_started := s.loops_started + 1 }

/-- Run a sequence of scheduler events. -/
def socket_run (s : ServerState) (es : List SocketEvent) : ServerState :=
  es.foldl socket_step s

/-- The process starts with the flag false, nothing queued, and no clients
(`main.py` line 27). -/
def server_init : ServerState :=
  { thread_running := false, pending_tasks := 0, loops_started := 0, clients := 0 }

/-- The structural form of the regular expression
`[+-]? digits+ ( . digits+ )? %` anchored at both ends, as a predicate on the
character list of a string. -/
def percentShape (cs : List Char) : Prop :=
  ∃ sg ds fr, (sg = ([] : List Char) ∨ sg = ['+'] ∨ sg = ['-']) ∧ ds ≠ [] ∧
    (∀ c ∈ ds, c.isDigit = true) ∧
    (fr = ([] : List Char) ∨ ∃ fd, fd ≠ [] ∧ (∀ c ∈ fd, c.isDigit = true) ∧ fr = '.' :: fd) ∧
    cs = sg ++ ds ++ fr ++ ['%']

/-- An upstream oracle on which every fetch raises. -/
def oracle_fail : String → Except Unit Info :=
  fun _ => .error ()

/-- An upstream oracle on which exactly the `AMZN` fetch raises and every
other symbol returns a fully populated quote. -/
def oracleC4 : String → Except Unit Info :=
  fun s =>
    if s = "AMZN" then .error ()
    else .ok { longName := some "Acme Corp", currentPrice := some 110,
               previousClose := some 100, regularMarketPrice := some 110 }

/-- An upstream oracle on which every fetch returns a fully populated quote. -/
def oracle_ok : String → Except Unit Info :=
  fun _ => .ok { longName := some "Acme Corp", currentPrice := some 252,
                 previousClose := some 250, regularMarketPrice := some 252 }

/-- An upstream oracle on which exactly the Nifty 50 fetch raises. -/
def oracle_nifty_fail : String → Except Unit Info :=
  fun s => if s = "^NSEI" then .error () else oracle_ok s

/-- Whether a route response is the 200 branch. -/
def is_ok (resp : Except String (List Row)) : Bool :=
  match resp with
  | .ok _ => true
  | .error _ => false

/-- The row list of the `/stock` route after the descending sort, before the
`Change_Numeric` column is dropped. -/
def sorted_stock_rows (oracle : String → Except Unit Info) : List Row :=
  List.insertionSort rowDescRel (all_stock_data stock_symbols oracle)

/-- The records the `/stock` route serialises on the 200 branch: the sorted
rows restricted to the column union minus `Change_Numeric`. -/
def stock_route_records (oracle : String → Except Unit Info) : List Row :=
  (sorted_stock_rows oracle).map
    (df_record ((df_columns (all_stock_data stock_symbols oracle)).filter
      (fun c => c ≠ "Change_Numeric")))


theorem rat_lt_iff_blt (a b : ℚ) : a < b ↔ Rat.blt a b = true :=
  Iff.rfl

theorem rat_le_iff_blt (a b : ℚ) : a ≤ b ↔ Rat.blt b a = false :=
  Iff.rfl

theorem den_cast_ne_zero (a : ℚ) : ((a.den : ℚ)) ≠ 0 :=
  Nat.cast_ne_zero.2 a.den_nz

theorem num_eq_mul_den (a : ℚ) : (a.num : ℚ) = a * a.den :=
  (div_eq_iff (den_cast_ne_zero a)).1 (Rat.num_div_den a)

theorem qsub_eq (a b : ℚ) : qsub a b = a - b := by
  rw [qsub, Rat.mkRat_eq_div]
  push_cast
  rw [div_eq_iff (mul_ne_zero (den_cast_ne_zero a) (den_cast_ne_zero b))]
  linear_combination (b.den : ℚ) * num_eq_mul_den a - (a.den : ℚ) * num_eq_mul_den b

theorem qmul_eq (a b : ℚ) : qmul a b = a * b := by
  rw [qmul, Rat.mkRat_eq_div]
  push_cast
  rw [div_eq_iff (mul_ne_zero (den_cast_ne_zero a) (den_cast_ne_zero b))]
  linear_combination (b.num : ℚ) * num_eq_mul_den a + (a * a.den) * num_eq_mul_den b

theorem qdiv_eq (a b : ℚ) : qdiv a b = a / b := by
  by_cases hb : b = 0
  · subst hb
    rw [qdiv]
    norm_num [Rat.divInt_eq_div]
  · have hbn : (b.num : ℚ) ≠ 0 := Int.cast_ne_zero.2 (Rat.num_ne_zero.2 hb)
    rw [qdiv, Rat.divInt_eq_div]
    push_cast
    rw [div_eq_div_iff (mul_ne_zero (den_cast_ne_zero a) hbn) hb]
    linear_combination (b.den : ℚ) * b * num_eq_mul_den a - (a * a.den) * num_eq_mul_den b

theorem ratFloor_eq (q : ℚ) : ratFloor q = ⌊q⌋ := by
  rw [Rat.floor_def, ratFloor]
  exact Int.fdiv_eq_ediv _ (Int.natCast_nonneg _)

theorem round2_eq (q : ℚ) : round2 q = (roundHalfEven (q * 100) : ℚ) / 100 := by
  rw [round2, Rat.divInt_eq_div, qmul_eq]
  norm_num


theorem keyLEb_total (x y : Option ℚ) : (keyLEb x y || keyLEb y x) = true := by
  cases x with
  | none => simp [keyLEb]
  | some a =>
    cases y with
    | none => simp [keyLEb]
    | some b =>
      rcases le_total a b with h | h
      · have hb : Rat.blt b a = false := (rat_le_iff_blt a b).1 h
        simp [keyLEb, hb]
      · have hb : Rat.blt a b = false := (rat_le_iff_blt b a).1 h
        simp [keyLEb, hb]

theorem keyLEb_trans (x y z : Option ℚ) (h1 : keyLEb x y = true) (h2 : keyLEb y z = true) :
    keyLEb x z = true := by
  cases x with
  | none => simp [keyLEb]
  | some a =>
    cases y with
    | none => simp [keyLEb] at h1
    | some b =>
      cases z with
      | none => simp [keyLEb] at h2
      | some c =>
        simp only [keyLEb, Bool.not_eq_true'] at h1 h2 ⊢
        exact (rat_le_iff_blt a c).1
          (le_trans ((rat_le_iff_blt a b).2 h1) ((rat_le_iff_blt b c).2 h2))

theorem rowDescLE_trans (a b c : Row) (h1 : rowDescLE a b) (h2 : rowDescLE b c) :
    rowDescLE a c :=
  keyLEb_trans (optKey c) (optKey b) (optKey a) h2 h1

theorem rowDescLE_total (a b : Row) : (rowDescLE a b || rowDescLE b a) = true :=
  keyLEb_total (optKey b) (optKey a)

theorem rowDescLE_iff (a b : Row) : rowDescLE a b = true ↔ sortKey b ≤ sortKey a := by
  unfold rowDescLE sortKey
  cases ha : optKey a with
  | none =>
    cases hb : optKey b with
    | none => simp [keyLEb]
    | some qb => simp [keyLEb]
  | some qa =>
    cases hb : optKey b with
    | none => simp [keyLEb]
    | some qb =>
      simp only [keyLEb, Bool.not_eq_true', WithBot.coe_le_coe]
      exact (rat_le_iff_blt qb qa).symm

theorem digitChar_isDigit {d : ℕ} (h : d < 10) : (digitChar d).isDigit = true := by
  have hall : ∀ m, m < 10 → (digitChar m).isDigit = true := by decide
  exact hall d h

theorem natDigitsAux_spec (fuel : ℕ) : ∀ n, n < fuel →
    natDigitsAux fuel n ≠ [] ∧ ∀ c ∈ natDigitsAux fuel n, c.isDigit = true := by
  induction fuel with
  | zero => intro n h; omega
  | succ fuel ih =>
    intro n h
    by_cases h10 : n < 10
    · simp only [natDigitsAux, if_pos h10]
      refine ⟨by simp, ?_⟩
      intro c hc
      rw [List.mem_singleton] at hc
      subst hc
      exact digitChar_isDigit h10
    · have hdiv : n / 10 < n := Nat.div_lt_self (by omega) (by omega)
      have hfuel : n / 10 < fuel := by omega
      obtain ⟨hne, hdig⟩ := ih (n / 10) hfuel
      simp only [natDigitsAux, if_neg h10]
      refine ⟨by simp, ?_⟩
      intro c hc
      rw [List.mem_append] at hc
      rcases hc with hc | hc
      · exact hdig c hc
      · rw [List.mem_singleton] at hc
        subst hc
        exact digitChar_isDigit (Nat.mod_lt n (by omega))

theorem natDigits_spec (n : ℕ) :
    natDigits n ≠ [] ∧ ∀ c ∈ natDigits n, c.isDigit = true :=
  natDigitsAux_spec (n + 1) n (Nat.lt_succ_self n)

theorem fracChars_spec (fp : ℕ) (h : fp < 100) :
    fracChars fp ≠ [] ∧ ∀ c ∈ fracChars fp, c.isDigit = true := by
  have hdiv : fp / 10 < 10 := Nat.div_lt_of_lt_mul (by omega)
  have hmod : fp % 10 < 10 := Nat.mod_lt fp (by omega)
  unfold fracChars
  split_ifs with h1 h2 h3
  · exact ⟨by simp, by intro c hc; rw [List.mem_singleton] at hc; subst hc; decide⟩
  · refine ⟨by simp, ?_⟩
    intro c hc
    rw [List.mem_singleton] at hc
    subst hc
    exact digitChar_isDigit hdiv
  · refine ⟨by simp, ?_⟩
    intro c hc
    simp only [List.mem_cons, List.mem_singleton, List.not_mem_nil, or_false] at hc
    rcases hc with rfl | rfl
    · decide
    · exact digitChar_isDigit h3
  · refine ⟨by simp, ?_⟩
    intro c hc
    simp only [List.mem_cons, List.mem_singleton, List.not_mem_nil, or_false] at hc
    rcases hc with rfl | rfl
    · exact digitChar_isDigit hdiv
    · exact digitChar_isDigit hmod

theorem str_data_append (a b : String) : (a ++ b).data = a.data ++ b.data := by
  cases a
  cases b
  rfl

theorem formatChangePercent_data (cp : ℚ) :
    (formatChangePercent cp).data =
      (if Rat.blt 0 cp then ['+'] else []) ++
        pyRepr2Chars (ratFloor (qmul cp 100)) ++ ['%'] := by
  cases hb : Rat.blt 0 cp <;>
    simp [formatChangePercent, pyRepr2, hb, str_data_append, String.mk]

theorem ratFloor_hundred_nonneg (cp : ℚ) (h : 0 < cp) : 0 ≤ ratFloor (qmul cp 100) := by
  rw [ratFloor_eq, qmul_eq]
  exact Int.floor_nonneg.2 (by positivity)

theorem ratFloor_hundred_neg_iff (cp : ℚ) : ratFloor (qmul cp 100) < 0 ↔ cp < 0 := by
  rw [ratFloor_eq, qmul_eq]
  constructor
  · intro h
    by_contra hge
    push_neg at hge
    have : 0 ≤ ⌊cp * 100⌋ := Int.floor_nonneg.2 (by positivity)
    omega
  · intro h
    by_contra hge
    push_neg at hge
    have h2 : (0 : ℚ) ≤ cp * 100 := Int.floor_nonneg.1 hge
    nlinarith

theorem formatChangePercent_shape (cp : ℚ) : percentShape (formatChangePercent cp).data := by
  rw [formatChangePercent_data]
  have hfrac := fracChars_spec ((ratFloor (qmul cp 100)).natAbs % 100) (Nat.mod_lt _ (by omega))
  have hnd := natDigits_spec ((ratFloor (qmul cp 100)).natAbs / 100)
  by_cases hpos : Rat.blt 0 cp = true
  · have hmnn : ¬ ratFloor (qmul cp 100) < 0 :=
      not_lt.2 (ratFloor_hundred_nonneg cp ((rat_lt_iff_blt 0 cp).2 hpos))
    refine ⟨['+'], natDigits ((ratFloor (qmul cp 100)).natAbs / 100),
      '.' :: fracChars ((ratFloor (qmul cp 100)).natAbs % 100),
      Or.inr (Or.inl rfl), hnd.1, hnd.2,
      Or.inr ⟨fracChars ((ratFloor (qmul cp 100)).natAbs % 100), hfrac.1, hfrac.2, rfl⟩, ?_⟩
    rw [pyRepr2Chars, if_neg hmnn]
    simp [hpos]
  · have hb : Rat.blt 0 cp = false := Bool.eq_false_iff.2 hpos
    by_cases hneg : ratFloor (qmul cp 100) < 0
    · refine ⟨['-'], natDigits ((ratFloor (qmul cp 100)).natAbs / 100),
        '.' :: fracChars ((ratFloor (qmul cp 100)).natAbs % 100),
        Or.inr (Or.inr rfl), hnd.1, hnd.2,
        Or.inr ⟨fracChars ((ratFloor (qmul cp 100)).natAbs % 100), hfrac.1, hfrac.2, rfl⟩, ?_⟩
      rw [pyRepr2Chars, if_pos hneg]
      simp [hb]
    · refine ⟨[], natDigits ((ratFloor (qmul cp 100)).natAbs / 100),
        '.' :: fracChars ((ratFloor (qmul cp 100)).natAbs % 100),
        Or.inl rfl, hnd.1, hnd.2,
        Or.inr ⟨fracChars ((ratFloor (qmul cp 100)).natAbs % 100), hfrac.1, hfrac.2, rfl⟩, ?_⟩
      rw [pyRepr2Chars, if_neg hneg]
      simp [hb]

theorem formatChangePercent_head_plus (cp : ℚ) :
    (formatChangePercent cp).data.head? = some '+' ↔ 0 < cp := by
  rw [formatChangePercent_data]
  constructor
  · intro h
    by_contra hpos
    have hb : Rat.blt 0 cp = false :=
      Bool.eq_false_iff.2 (fun hx => hpos ((rat_lt_iff_blt 0 cp).2 hx))
    rw [hb] at h
    simp only [Bool.false_eq_true, if_false, List.nil_append] at h
    by_cases hneg : ratFloor (qmul cp 100) < 0
    · rw [pyRepr2Chars, if_pos hneg] at h
      simp at h
    · rw [pyRepr2Chars, if_neg hneg] at h
      obtain ⟨hne, hdig⟩ := natDigits_spec ((ratFloor (qmul cp 100)).natAbs / 100)
      obtain ⟨d, l, hd⟩ := List.exists_cons_of_ne_nil hne
      rw [hd] at h
      simp only [List.nil_append, List.cons_append, List.head?_cons, Option.some_inj] at h
      have : d.isDigit = true := hdig d (by rw [hd]; exact List.mem_cons_self d l)
      rw [h] at this
      exact absurd this (by decide)
  · intro h
    have hb : Rat.blt 0 cp = true := (rat_lt_iff_blt 0 cp).1 h
    rw [hb]
    simp

theorem formatChangePercent_head_minus (cp : ℚ) :
    (formatChangePercent cp).data.head? = some '-' ↔ cp < 0 := by
  rw [formatChangePercent_data]
  constructor
  · intro h
    by_cases hpos : Rat.blt 0 cp = true
    · rw [hpos] at h
      simp at h
    · have hb : Rat.blt 0 cp = false := Bool.eq_false_iff.2 hpos
      rw [hb] at h
      simp only [Bool.false_eq_true, if_false, List.nil_append] at h
      by_cases hneg : ratFloor (qmul cp 100) < 0
      · exact (ratFloor_hundred_neg_iff cp).1 hneg
      · rw [pyRepr2Chars, if_neg hneg] at h
        obtain ⟨hne, hdig⟩ := natDigits_spec ((ratFloor (qmul cp 100)).natAbs / 100)
        obtain ⟨d, l, hd⟩ := List.exists_cons_of_ne_nil hne
        rw [hd] at h
        simp only [List.nil_append, List.cons_append, List.head?_cons, Option.some_inj] at h
        have : d.isDigit = true := hdig d (by rw [hd]; exact List.mem_cons_self d l)
        rw [h] at this
        exact absurd this (by decide)
  · intro h
    have hpos : ¬ 0 < cp := not_lt.2 (le_of_lt h)
    have hb : Rat.blt 0 cp = false :=
      Bool.eq_false_iff.2 (fun hx => hpos ((rat_lt_iff_blt 0 cp).2 hx))
    have hneg : ratFloor (qmul cp 100) < 0 := (ratFloor_hundred_neg_iff cp).2 h
    rw [hb, pyRepr2Chars, if_pos hneg]
    simp

theorem formatChangePercent_ne_NA (cp : ℚ) : formatChangePercent cp ≠ "N/A" := by
  intro h
  have hd := congrArg String.data h
  rw [formatChangePercent_data] at hd
  have hlast := congrArg List.getLast? hd
  rw [List.getLast?_concat] at hlast
  exact absurd hlast (by decide)

theorem formatChangePercent_eq (cp : ℚ) :
    formatChangePercent cp = (if 0 < cp then "+" else "") ++ pyRepr2 cp ++ "%" := by
  by_cases h : 0 < cp
  · have hb : Rat.blt 0 cp = true := (rat_lt_iff_blt 0 cp).1 h
    simp [formatChangePercent, hb, h]
  · have hb : Rat.blt 0 cp = false :=
      Bool.eq_false_iff.2 (fun hx => h ((rat_lt_iff_blt 0 cp).2 hx))
    simp [formatChangePercent, hb, h]

theorem transform_stock_pos (c p : ℚ) (hp : p ≠ 0) :
    transform_stock (some c) (some p) =
      { change := .num (round2 (c - p)),
        change_percent := .num (round2 (round2 (c - p) / p * 100)),
        change_percent_formatted := formatChangePercent (round2 (round2 (c - p) / p * 100)),
        change_numeric := .num (round2 (round2 (c - p) / p * 100)) } := by
  simp only [transform_stock]
  rw [if_pos hp, qsub_eq, qdiv_eq, qmul_eq]

theorem transform_indices_eq_stock (cp pc : Option ℚ) :
    transform_indices cp pc =
      { change := (transform_stock cp pc).change,
        change_percent := (transform_stock cp pc).change_percent,
        change_percent_formatted := (transform_stock cp pc).change_percent_formatted } := by
  cases cp with
  | none => cases pc <;> rfl
  | some c =>
    cases pc with
    | none => rfl
    | some p =>
      by_cases h : p ≠ 0
      · simp only [transform_indices, transform_stock, if_pos h]
      · simp only [transform_indices, transform_stock, if_neg h]

theorem sorted_rows_pairwise (rows : List Row) :
    ((List.insertionSort rowDescRel rows).map sortKey).Pairwise (fun a b => b ≤ a) := by
  rw [List.pairwise_map]
  exact (List.sorted_insertionSort rowDescRel rows).imp
    (fun h => (rowDescLE_iff _ _).1 h)

theorem stock_route_of_ne_nil (symbols : List String) (oracle : String → Except Unit Info)
    (h : symbols ≠ []) :
    stock_route symbols oracle =
      .ok ((List.insertionSort rowDescRel (all_stock_data symbols oracle)).map
        (df_record ((df_columns (all_stock_data symbols oracle)).filter
          (fun c => c ≠ "Change_Numeric")))) := by
  obtain ⟨s, ss, rfl⟩ := List.exists_cons_of_ne_nil h
  rfl

theorem stock_route_nil (oracle : String → Except Unit Info) :
    stock_route [] oracle = .error "No stock data could be retrieved." :=
  rfl

theorem indices_payload_of_ne_nil (basket : List (String × String))
    (oracle : String → Except Unit Info) (h : basket ≠ []) :
    indices_update_payload basket oracle = fetch_cycle_rows basket oracle := by
  obtain ⟨p, ps, rfl⟩ := List.exists_cons_of_ne_nil h
  rfl

theorem indices_payload_nil (oracle : String → Except Unit Info) :
    indices_update_payload [] oracle = no_index_data_batch :=
  rfl

theorem indices_payload_ne_nil (basket : List (String × String))
    (oracle : String → Except Unit Info) :
    indices_update_payload basket oracle ≠ [] := by
  cases basket with
  | nil => simp [indices_update_payload, fetch_cycle_rows, no_index_data_batch]
  | cons p ps =>
    rw [indices_payload_of_ne_nil _ _ (by simp)]
    simp [fetch_cycle_rows]

/-- C1: for every quote with both prices present and a nonzero previous
close, the transform produces `change = round(currentPrice - previousClose,
2)`, `changePercent = round(change / previousClose * 100, 2)`, the formatted
string `changePercent` followed by a percent sign with a plus prefix exactly
when `changePercent > 0`, and `sortKey (Change_Numeric) = changePercent`;
concretely, `currentPrice = 252, previousClose = 250` yields change `2.0`,
changePercent `0.8`, formatted `"+0.8%"`, sortKey `0.8`. -/
theorem C1_transform_formulas :
    (∀ (c p : ℚ), p ≠ 0 →
      transform_stock (some c) (some p) =
        { change := .num (round2 (c - p)),
          change_percent := .num (round2 (round2 (c - p) / p * 100)),
          change_percent_formatted :=
            (if 0 < round2 (round2 (c - p) / p * 100) then "+" else "") ++
              pyRepr2 (round2 (round2 (c - p) / p * 100)) ++ "%",
          change_numeric := .num (round2 (round2 (c - p) / p * 100)) })
    ∧ transform_stock (some 252) (some 250) =
        { change := .num 2, change_percent := .num (0.8 : ℚ),
          change_percent_formatted := "+0.8%", change_numeric := .num (0.8 : ℚ) } := by
  constructor
  · intro c p hp
    rw [transform_stock_pos c p hp, formatChangePercent_eq]
  · rw [show (0.8 : ℚ) = mkRat 4 5 from by rw [Rat.mkRat_eq_div]; norm_num]
    decide

/-- Witness for C1: the general formula instantiated at
`currentPrice = 252, previousClose = 250`, the spec's concrete case. -/
theorem C1_witness :
    transform_stock (some 252) (some 250) =
      { change := .num (round2 ((252 : ℚ) - 250)),
        change_percent := .num (round2 (round2 ((252 : ℚ) - 250) / 250 * 100)),
        change_percent_formatted :=
          (if 0 < round2 (round2 ((252 : ℚ) - 250) / 250 * 100) then "+" else "") ++
            pyRepr2 (round2 (round2 ((252 : ℚ) - 250) / 250 * 100)) ++ "%",
        change_numeric := .num (round2 (round2 ((252 : ℚ) - 250) / 250 * 100)) } :=
  C1_transform_formulas.1 252 250 (by norm_num)

/-- C6 (amended): a transform result's `change_percent_formatted` is `"N/A"`
iff `change`/`change_percent` are unavailable; otherwise it matches
`[+-]? digits+ (. digits+)? %` and its sign matches the sign of the computed
`changePercent` (not of `change`): a leading plus iff `changePercent > 0`, a
leading minus iff `changePercent < 0`, and the unsigned `"0.0%"` when
`changePercent = 0`.  The websocket transform computes the same fields. -/
theorem C6_formatted_invariant :
    ∀ (cp pc : Option ℚ),
      ((transform_stock cp pc).change_percent_formatted = "N/A" ↔
        (transform_stock cp pc).change = .str "N/A" ∧
          (transform_stock cp pc).change_percent = .str "N/A")
      ∧ (∀ q, (transform_stock cp pc).change_percent = .num q →
          percentShape (transform_stock cp pc).change_percent_formatted.data
          ∧ ((transform_stock cp pc).change_percent_formatted.data.head? = some '+' ↔ 0 < q)
          ∧ ((transform_stock cp pc).change_percent_formatted.data.head? = some '-' ↔ q < 0)
          ∧ (q = 0 → (transform_stock cp pc).change_percent_formatted = "0.0%"))
      ∧ transform_indices cp pc =
          { change := (transform_stock cp pc).change,
            change_percent := (transform_stock cp pc).change_percent,
            change_percent_formatted := (transform_stock cp pc).change_percent_formatted } := by
  intro cp pc
  refine ⟨?_, ?_, transform_indices_eq_stock cp pc⟩
  · cases cp with
    | none => simp [transform_stock]
    | some c =>
      cases pc with
      | none => simp [transform_stock]
      | some p =>
        by_cases hp : p ≠ 0
        · simp only [transform_stock, if_pos hp]
          constructor
          · intro hf
            exact absurd hf (formatChangePercent_ne_NA _)
          · rintro ⟨h1, -⟩
            exact absurd h1 (by simp)
        · simp [transform_stock, hp]
  · intro q hq
    cases cp with
    | none => simp [transform_stock] at hq
    | some c =>
      cases pc with
      | none => simp [transform_stock] at hq
      | some p =>
        by_cases hp : p ≠ 0
        · simp only [transform_stock, if_pos hp] at hq ⊢
          have hq2 : round2 (qmul (qdiv (round2 (qsub c p)) p) 100) = q := by
            injection hq
          rw [hq2]
          refine ⟨formatChangePercent_shape q, formatChangePercent_head_plus q,
            formatChangePercent_head_minus q, ?_⟩
          rintro rfl
          decide
        · simp [transform_stock, hp] at hq

/-- Counterexample for C6 as stated: with `currentPrice = 1000.01` and
`previousClose = 1000` the computed change is `0.01` (positive), but the
formatted string is the sign-less `"0.0%"` (the rounded percent is zero), so
the string's sign does not match the sign of the computed change. -/
theorem C6_counterexample :
    (transform_stock (some (mkRat 100001 100)) (some 1000)).change = .num (mkRat 1 100)
    ∧ ((0 : ℚ) < mkRat 1 100)
    ∧ (transform_stock (some (mkRat 100001 100)) (some 1000)).change_percent_formatted = "0.0%"
    ∧ ¬ ((transform_stock (some (mkRat 100001 100)) (some 1000)).change_percent_formatted.data.head?
          = some '+') := by
  decide

/-- Witness for C6: the amended invariant instantiated at the populated quote
`252 / 250`, whose percent is `4/5`. -/
theorem C6_witness :
    percentShape (transform_stock (some 252) (some 250)).change_percent_formatted.data
    ∧ ((transform_stock (some 252) (some 250)).change_percent_formatted.data.head? = some '+'
        ↔ 0 < mkRat 4 5)
    ∧ ((transform_stock (some 252) (some 250)).change_percent_formatted.data.head? = some '-'
        ↔ mkRat 4 5 < 0)
    ∧ (mkRat 4 5 = 0 →
        (transform_stock (some 252) (some 250)).change_percent_formatted = "0.0%") :=
  (C6_formatted_invariant (some 252) (some 250)).2.1 (mkRat 4 5) (by decide)

theorem sorted_rows_pairwise_keys (rows : List Row) :
    (List.insertionSort rowDescRel rows).Pairwise (fun a b => sortKey b ≤ sortKey a) :=
  (List.sorted_insertionSort rowDescRel rows).imp
    (fun h => (rowDescLE_iff _ _).1 h)

/-- C2: the `/stock` batch is the record list of the rows sorted descending
by `Change_Numeric`: consecutive entries are non-increasing in sortKey, and
once an entry's key is `-inf` (price unavailable) every later entry's key is
`-inf` too, so unavailable entries sort after available ones. -/
theorem C2_snapshot_sorted :
    ∀ (oracle : String → Except Unit Info),
      get_indian_stock_performance_route oracle = .ok (stock_route_records oracle)
      ∧ ((sorted_stock_rows oracle).map sortKey).Pairwise (fun a b => b ≤ a)
      ∧ (∀ i j (hi : i < (sorted_stock_rows oracle).length)
          (hj : j < (sorted_stock_rows oracle).length), i ≤ j →
          sortKey ((sorted_stock_rows oracle).get ⟨i, hi⟩) = ⊥ →
          sortKey ((sorted_stock_rows oracle).get ⟨j, hj⟩) = ⊥) := by
  intro oracle
  have hpk : (sorted_stock_rows oracle).Pairwise (fun a b => sortKey b ≤ sortKey a) := by
    rw [sorted_stock_rows]
    exact sorted_rows_pairwise_keys _
  refine ⟨?_, by rw [sorted_stock_rows]; exact sorted_rows_pairwise _, ?_⟩
  · rw [get_indian_stock_performance_route,
      stock_route_of_ne_nil _ _ (by simp [stock_symbols])]
    rfl
  · intro i j hi hj hij hbot
    rcases Nat.lt_or_ge i j with hlt | hge
    · have hle := List.pairwise_iff_get.1 hpk ⟨i, hi⟩ ⟨j, hj⟩ hlt
      rw [hbot] at hle
      exact le_bot_iff.1 hle
    · have hij2 : i = j := le_antisymm hij hge
      subst hij2
      exact hbot

/-- Witness for C2: with every fetch failing, every sort key of the sorted
batch is `-inf`; the bottom-propagation law instantiated at positions 0 and 9. -/
theorem C2_witness :
    sortKey ((sorted_stock_rows oracle_fail).get ⟨9, by decide⟩) = ⊥ :=
  (C2_snapshot_sorted oracle_fail).2.2 0 9 (by decide) (by decide) (by omega) (by decide)

/-- C3 (amended): the `/stock` route answers the explicit "no data" error iff
the basket itself is empty; a non-empty basket always yields the 200 branch,
even when every per-symbol fetch raises, because the `except` path still
appends an `'Error'` row per symbol. -/
theorem C3_empty_error_iff :
    ∀ (symbols : List String) (oracle : String → Except Unit Info),
      (stock_route symbols oracle = .error "No stock data could be retrieved." ↔ symbols = [])
      ∧ (symbols ≠ [] → is_ok (stock_route symbols oracle) = true) := by
  intro symbols oracle
  cases symbols with
  | nil => exact ⟨by simp [stock_route_nil], by simp⟩
  | cons s ss =>
    constructor
    · rw [stock_route_of_ne_nil _ _ (by simp)]
      simp
    · intro h
      rw [stock_route_of_ne_nil _ _ (by simp)]
      rfl

/-- Counterexample for C3 as stated: every fetch of the 10-symbol basket
fails, yet the route returns the 200 array of 10 error entries, not the
empty-result error. -/
theorem C3_counterexample :
    is_ok (get_indian_stock_performance_route oracle_fail) = true
    ∧ (response_rows (get_indian_stock_performance_route oracle_fail)).length = 10 := by
  decide

/-- Witness for C3: the amended law applied to the real non-empty basket. -/
theorem C3_witness :
    is_ok (stock_route stock_symbols oracle_fail) = true :=
  (C3_empty_error_iff stock_symbols oracle_fail).2 (by simp [stock_symbols])

/-- C10: the `/stock` loop appends exactly one entry per basket symbol on
both the success and the exception path, the basket is a fixed list of 10
symbols, so the result list is never empty, the 500 branch is unreachable,
and the route always responds 200 with 10 records. -/
theorem C10_route_total :
    ∀ (oracle : String → Except Unit Info),
      (all_stock_data stock_symbols oracle).length = stock_symbols.length
      ∧ stock_symbols.length = 10
      ∧ (∀ (i : ℕ), (all_stock_data stock_symbols oracle)[i]? =
          (stock_symbols[i]?).map (fun s => stockRow s (oracle s)))
      ∧ get_indian_stock_performance_route oracle = .ok (stock_route_records oracle)
      ∧ (stock_route_records oracle).length = 10 := by
  intro oracle
  refine ⟨List.length_map _ _, rfl, ?_, ?_, ?_⟩
  · intro i
    simp [all_stock_data]
  · rw [get_indian_stock_performance_route,
      stock_route_of_ne_nil _ _ (by simp [stock_symbols])]
    rfl
  · rw [stock_route_records, sorted_stock_rows, List.length_map, List.length_insertionSort,
      all_stock_data, List.length_map]
    rfl

/-- C5: each poll cycle publishes the assembled rows (the fixed basket is
non-empty), with exactly one entry per basket symbol in basket order; entry
`i` depends only on that symbol's fetch result, a failed fetch degrades to
the all-"N/A" row for that symbol only, and two oracles that agree on a
symbol produce the same entry for it regardless of other symbols' failures. -/
theorem C5_poller_isolation :
    ∀ (o1 o2 : String → Except Unit Info),
      indices_update_payload index_symbols o1 = fetch_cycle_rows index_symbols o1
      ∧ (fetch_cycle_rows index_symbols o1).length = index_symbols.length
      ∧ (∀ (i : ℕ), (fetch_cycle_rows index_symbols o1)[i]? =
          (index_symbols[i]?).map (fun p => indicesRow p.1 p.2 (o1 p.2)))
      ∧ (∀ name symbol, indicesRow name symbol (.error ()) =
          [("Name", .str name), ("Symbol", .str symbol), ("Price", .str "N/A"),
           ("Change", .str "N/A"), ("Change %", .str "N/A")])
      ∧ (∀ (i : ℕ) (p : String × String), index_symbols[i]? = some p → o1 p.2 = o2 p.2 →
          (fetch_cycle_rows index_symbols o1)[i]? =
            (fetch_cycle_rows index_symbols o2)[i]?) := by
  intro o1 o2
  refine ⟨indices_payload_of_ne_nil _ _ (by simp [index_symbols]), List.length_map _ _,
    ?_, fun name symbol => rfl, ?_⟩
  · intro i
    simp [fetch_cycle_rows]
  · intro i p hp heq
    simp only [fetch_cycle_rows, List.getElem?_map, hp]
    simp [heq]

/-- Witness for C5: Sensex succeeds under both oracles while the second
oracle fails the Nifty fetch; the Sensex entry is unchanged. -/
theorem C5_witness :
    (fetch_cycle_rows index_symbols oracle_ok)[0]? =
      (fetch_cycle_rows index_symbols oracle_nifty_fail)[0]? :=
  (C5_poller_isolation oracle_ok oracle_nifty_fail).2.2.2.2 0 ("Sensex", "^BSESN") rfl rfl

/-- C7 (amended): the poll cycle publishes the single "no data" marker iff
the basket is empty; when the basket is non-empty — in particular when every
fetch fails — it publishes one entry per symbol, never an empty sequence. -/
theorem C7_marker_iff_empty_basket :
    ∀ (basket : List (String × String)) (oracle : String → Except Unit Info),
      indices_update_payload basket oracle ≠ []
      ∧ (basket = [] → indices_update_payload basket oracle = no_index_data_batch)
      ∧ (basket ≠ [] → indices_update_payload basket oracle = fetch_cycle_rows basket oracle)
      ∧ (fetch_cycle_rows basket oracle).length = basket.length := by
  intro basket oracle
  refine ⟨indices_payload_ne_nil _ _, ?_, indices_payload_of_ne_nil _ _, List.length_map _ _⟩
  rintro rfl
  exact indices_payload_nil oracle

/-- Counterexample for C7 as stated: both fetches of the two-symbol basket
fail, yet the published batch is the two per-symbol "N/A" rows, not the
single "no data" marker entry. -/
theorem C7_counterexample :
    (indices_update_payload index_symbols oracle_fail).length = 2
    ∧ indices_update_payload index_symbols oracle_fail ≠ no_index_data_batch := by
  decide

/-- Witness for C7: the amended law applied to the real two-symbol basket
with every fetch failing. -/
theorem C7_witness :
    indices_update_payload index_symbols oracle_fail =
      fetch_cycle_rows index_symbols oracle_fail :=
  (C7_marker_iff_empty_basket index_symbols oracle_fail).2.2.1 (by simp [index_symbols])

/-- C8: the Idle-to-Running transition is not idempotent under concurrent
connects: `thread_running` is set inside the spawned task, not in
`handle_connect`, so two connects handled before either queued task runs
both spawn a task and two poll-loop instances start.  A connect arriving
after the first task has run does not spawn another. -/
theorem C8_double_start :
    (socket_run server_init
      [.connect, .connect, .begin_task, .begin_task]).loops_started = 2
    ∧ (socket_run server_init [.connect]).pending_tasks = 1
    ∧ (socket_run server_init [.connect, .begin_task, .connect]).pending_tasks = 0 := by
  decide

/-- C9 (amended): once `thread_running` is true it stays true under every
sequence of connect, disconnect and task-start events: the disconnect
handler performs no teardown and the poller never returns to Idle, even when
the subscriber set becomes and stays empty. -/
theorem C9_running_forever :
    ∀ (s : ServerState) (es : List SocketEvent),
      s.thread_running = true → (socket_run s es).thread_running = true := by
  intro s es
  induction es generalizing s with
  | nil => exact fun h => h
  | cons e es ih =>
    intro h
    have hstep : (socket_step s e).thread_running = true := by
      cases e with
      | connect => simp [socket_step, h]
      | disconnect => simp [socket_step, h]
      | begin_task => cases hp : s.pending_tasks <;> simp [socket_step, hp, h]
    exact ih (socket_step s e) hstep

/-- Counterexample for C9 as stated: a disconnect leaves the poller state
untouched apart from the client count; after the last subscriber leaves, the
flag is still true and the loop still runs. -/
theorem C9_no_teardown :
    socket_step
        { thread_running := true, pending_tasks := 0, loops_started := 1, clients := 1 }
        .disconnect =
      { thread_running := true, pending_tasks := 0, loops_started := 1, clients := 0 }
    ∧ (socket_run server_init [.connect, .begin_task, .disconnect]).clients = 0
    ∧ (socket_run server_init [.connect, .begin_task, .disconnect]).thread_running = true := by
  decide

/-- Witness for C9: the invariant applied to a Running state with no clients
over further disconnect/connect events. -/
theorem C9_witness :
    (socket_run
      { thread_running := true, pending_tasks := 0, loops_started := 1, clients := 0 }
      [.disconnect, .connect, .disconnect]).thread_running = true :=
  C9_running_forever _ _ rfl

set_option maxRecDepth 100000 in
set_option maxHeartbeats 1000000 in
/-- C4: evaluation of the route at the failing input.  When no fetch raises,
every record has exactly the five claimed fields; but when the `AMZN` fetch
raises, its `except`-path dict writes the key `'Change %'` instead of
`'ChangeP'`, so the DataFrame's column union gives every record six fields
and the failed row's `ChangeP` cell is the `NaN` fill — a malformed shape. -/
theorem C4_exception_row_shape :
    response_keys (get_indian_stock_performance_route oracle_ok) =
      List.replicate 10 ["Company", "Symbol", "Price", "Change", "ChangeP"]
    ∧ response_keys (get_indian_stock_performance_route oracleC4) =
      List.replicate 10 ["Company", "Symbol", "Price", "Change", "ChangeP", "Change %"]
    ∧ ((response_rows (get_indian_stock_performance_route oracleC4)).map
        (fun r => rowGet r "ChangeP")).getLast? = some (some .nan)
    ∧ ["Company", "Symbol", "Price", "Change", "ChangeP", "Change %"] ≠
        ["Company", "Symbol", "Price", "Change", "ChangeP"] := by
  decide
